import Mathlib

/-!
Verification of the check-flac validator (checkflac/checkflac.py).

The Python source is shallowly embedded: pure helper functions become Lean
functions, the Album/Disc/Track tree becomes three structures, printed
problem reports become lists of `Finding` values, and the mutable
per-album configuration namespace becomes explicit state passing.
-/

/-- Partial date (checkflac.py, class `Date`): year plus optional month/day.
Python stores plain ints; machine width is irrelevant here so `Int` is used. -/
structure Date where
  year : Int
  month : Option Int
  day : Option Int
deriving DecidableEq, Repr

/-- `Date.__eq__` (checkflac.py lines 174-191): equality propagates precision
from the less precise operand. -/
def Date.eq (a b : Date) : Bool :=
  if a.year ≠ b.year then false
  else if a.month = none ∨ b.month = none then true
  else if a.month ≠ b.month then false
  else if a.day = none ∨ b.day = none then true
  else a.day == b.day

/-- Fuel-driven helper for `natDigits`; the fuel only forces structural
termination and is always sufficient at the call site. -/
def natDigitsAux : Nat → Nat → List Char
  | 0, _ => []
  | fuel + 1, n =>
    if n < 10 then [Nat.digitChar n]
    else natDigitsAux fuel (n / 10) ++ [Nat.digitChar (n % 10)]

/-- Decimal digit list (most significant first) of a natural number, as
rendered by Python `str`/`format` for non-negative ints. -/
def natDigits (n : Nat) : List Char := natDigitsAux (n + 1) n

/-- Numeric value of a digit character. -/
def digitVal (c : Char) : Nat := c.toNat - '0'.toNat

/-- Numeric value of a digit string (most significant first), threaded through
an accumulator; used to state correctness of formatting and parsing. -/
def digitsValAux : Nat → List Char → Nat
  | acc, [] => acc
  | acc, c :: rest => digitsValAux (10 * acc + digitVal c) rest

/-- Left-pad a digit list with zeros to width `w` (Python zero-padding). -/
def zfill (w : Nat) (ds : List Char) : List Char :=
  List.replicate (w - ds.length) '0' ++ ds

/-- Python `"{:0wd}".format(n)`: zero-pad to total width `w`; a sign counts
toward the width. -/
def pyFmt0 (w : Nat) (n : Int) : List Char :=
  if n < 0 then '-' :: zfill (w - 1) (natDigits n.natAbs)
  else zfill w (natDigits n.natAbs)

/-- `Date.__str__` (checkflac.py lines 193-199): `{year:04d}` then optional
`-{month:02d}` then optional `-{day:02d}`. -/
def Date.toStr (d : Date) : String :=
  String.mk (pyFmt0 4 d.year
    ++ (match d.month with | some m => '-' :: pyFmt0 2 m | none => [])
    ++ (match d.day with | some x => '-' :: pyFmt0 2 x | none => []))

/-- CPython strptime directive `%Y`: exactly four digits (regex `\d\d\d\d`). -/
def parseY4 : List Char → Option (Nat × List Char)
  | a :: b :: c :: d :: rest =>
    if a.isDigit && b.isDigit && c.isDigit && d.isDigit then
      some (((digitVal a * 10 + digitVal b) * 10 + digitVal c) * 10 + digitVal d, rest)
    else none
  | _ => none

/-- CPython strptime directives `%m` (`1[0-2]|0[1-9]|[1-9]`, `hi = 12`) and
`%d` (`3[01]|[12]\d|0[1-9]|[1-9]`, `hi = 31`): a two-digit match whose value
lies in `1..hi` is preferred, otherwise a single non-zero digit. -/
def parseNum2 (hi : Nat) : List Char → Option (Nat × List Char)
  | c1 :: c2 :: rest =>
    if c1.isDigit && c2.isDigit && 1 ≤ 10 * digitVal c1 + digitVal c2
        && 10 * digitVal c1 + digitVal c2 ≤ hi then
      some (10 * digitVal c1 + digitVal c2, rest)
    else if c1.isDigit && 1 ≤ digitVal c1 then some (digitVal c1, c2 :: rest)
    else none
  | [c1] => if c1.isDigit && 1 ≤ digitVal c1 then some (digitVal c1, []) else none
  | [] => none

/-- Gregorian leap-year rule used by `datetime`. -/
def isLeap (y : Nat) : Bool := y % 4 = 0 && (y % 100 ≠ 0 || y % 400 = 0)

/-- Days in a month, as validated by `datetime.datetime`. -/
def daysInMonth (y m : Nat) : Nat :=
  if m = 2 then (if isLeap y then 29 else 28)
  else if m = 4 ∨ m = 6 ∨ m = 9 ∨ m = 11 then 30
  else 31

/-- `datetime.strptime(s, "%Y-%m-%d")`: anchored regex match, whole-string
consumption check, then `datetime` range validation (year 1..9999, day within
the month). -/
def strpYMD (cs : List Char) : Option Date :=
  match parseY4 cs with
  | some (y, '-' :: r2) =>
    match parseNum2 12 r2 with
    | some (m, '-' :: r4) =>
      match parseNum2 31 r4 with
      | some (d, r5) =>
        if r5 = [] ∧ 1 ≤ y ∧ d ≤ daysInMonth y m then
          some ⟨(y : Int), some (m : Int), some (d : Int)⟩
        else none
      | _ => none
    | _ => none
  | _ => none

/-- `datetime.strptime(s, "%Y-%m")`. -/
def strpYM (cs : List Char) : Option Date :=
  match parseY4 cs with
  | some (y, '-' :: r2) =>
    match parseNum2 12 r2 with
    | some (m, r3) =>
      if r3 = [] ∧ 1 ≤ y then some ⟨(y : Int), some (m : Int), none⟩ else none
    | _ => none
  | _ => none

/-- `datetime.strptime(s, "%Y")`. -/
def strpY (cs : List Char) : Option Date :=
  match parseY4 cs with
  | some (y, r1) => if r1 = [] ∧ 1 ≤ y then some ⟨(y : Int), none, none⟩ else none
  | _ => none

/-- `Date.parse` (checkflac.py lines 201-215): try `%Y-%m-%d`, then `%Y-%m`,
then `%Y`; `None` when all fail. -/
def Date.parse (s : String) : Option Date :=
  match strpYMD s.data with
  | some d => some d
  | none =>
    match strpYM s.data with
    | some d => some d
    | none => strpY s.data

/-- The round-trip expression `Date.parse(str(d)) == d` of the spec: a failed
parse yields Python `None == d`, which is `False`. -/
def dateRoundtrip (d : Date) : Bool :=
  match Date.parse (Date.toStr d) with
  | some e => Date.eq e d
  | none => false

/-- Python `int(str)` on the ASCII surface: strip surrounding whitespace, an
optional sign, then digits with optional single underscores between digits. -/
def isPySpace (c : Char) : Bool :=
  c = ' ' || c = '\t' || c = '\n' || c = '\r' || c = '\x0b' || c = '\x0c'

/-- Digit run with underscores allowed between digits (empty input fails). -/
def parseUDigitsAux : Nat → List Char → Option Nat
  | acc, [] => some acc
  | acc, '_' :: c :: rest =>
    if c.isDigit then parseUDigitsAux (10 * acc + digitVal c) rest else none
  | acc, c :: rest =>
    if c.isDigit then parseUDigitsAux (10 * acc + digitVal c) rest else none

def parseUDigits : List Char → Option Nat
  | [] => none
  | c :: rest => if c.isDigit then parseUDigitsAux (digitVal c) rest else none

def pyInt (s : String) : Option Int :=
  let cs := ((s.data.dropWhile isPySpace).reverse.dropWhile isPySpace).reverse
  match cs with
  | '+' :: rest => (parseUDigits rest).map (fun n => (n : Int))
  | '-' :: rest => (parseUDigits rest).map (fun n => -(n : Int))
  | _ => (parseUDigits cs).map (fun n => (n : Int))

/-- One vorbis tag on a track: taglib delivers a name and a non-empty ordered
value list; `val` is the first value (`tag[0]` in `get_tag`), `extra` the
rest (a duplicate-tag condition when non-empty). -/
structure TagEntry where
  name : String
  val : String
  extra : List String
deriving DecidableEq, Repr

/-- A track: leaf of the tree (class `Track`). -/
structure Track where
  name : String
  tags : List TagEntry
deriving DecidableEq, Repr

/-- A disc (class `Disc`); `name` is `None` when the disc shares the album
directory. -/
structure Disc where
  name : Option String
  tracks : List Track
deriving DecidableEq, Repr

/-- An album (class `Album`). -/
structure Album where
  name : String
  discs : List Disc
deriving DecidableEq, Repr

def findTag (tags : List TagEntry) (tagName : String) : Option TagEntry :=
  tags.find? (fun e => e.name == tagName)

/-- `get_tag` with `placeholder=True` at the track level (checkflac.py lines
497-511): the first stored value, or a `None` placeholder. -/
def Track.tag_entries (t : Track) (tagName : String) : List (Option String) :=
  match findTag t.tags tagName with
  | some e => [some e.val]
  | none => [none]

/-- `get_tag` with `placeholder=False` at the track level: absent tags
contribute nothing. -/
def Track.tag_values (t : Track) (tagName : String) : List String :=
  match findTag t.tags tagName with
  | some e => [e.val]
  | none => []

/-- `get_tag` at the disc level: concatenation over tracks (line 513). -/
def Disc.tag_entries (d : Disc) (tagName : String) : List (Option String) :=
  d.tracks.flatMap (fun t => t.tag_entries tagName)

def Disc.tag_values (d : Disc) (tagName : String) : List String :=
  d.tracks.flatMap (fun t => t.tag_values tagName)

/-- `get_tag` at the album level: concatenation over discs. -/
def Album.tag_entries (a : Album) (tagName : String) : List (Option String) :=
  a.discs.flatMap (fun d => d.tag_entries tagName)

def Album.tag_values (a : Album) (tagName : String) : List String :=
  a.discs.flatMap (fun d => d.tag_values tagName)

/-- `get_valid_tag` (lines 515-520): the unique value if every item agrees
and none is missing, otherwise `None`.  `set(...)` is rendered as `dedup`. -/
def get_valid_tag_of (entries : List (Option String)) : Option String :=
  match entries.dedup with
  | [some v] => some v
  | _ => none

def Track.get_valid_tag (t : Track) (tagName : String) : Option String :=
  get_valid_tag_of (t.tag_entries tagName)

def Disc.get_valid_tag (d : Disc) (tagName : String) : Option String :=
  get_valid_tag_of (d.tag_entries tagName)

def Album.get_valid_tag (a : Album) (tagName : String) : Option String :=
  get_valid_tag_of (a.tag_entries tagName)

/-- The `Missing` enum (lines 218-221). -/
inductive Missing
  | NONE
  | SOME
  | ALL
deriving DecidableEq, Repr

/-- `_check_all_same` (lines 252-276) computed from the placeholder-included
entry list: classify missingness, flag multiple distinct values, and build
the explanatory messages (message text abbreviated; the counts match). -/
def check_all_same_of (temp : List (Option String)) : Missing × Bool × List String :=
  let tags0 := temp.dedup
  let hasNone := none ∈ tags0
  let tags := if hasNone then tags0.erase none else tags0
  let code := if hasNone then (if tags.isEmpty then Missing.ALL else Missing.SOME)
              else Missing.NONE
  let multiple := decide (tags.length > 1)
  let msgs :=
    (if hasNone then
      [if tags.isEmpty then "missing from all items"
       else "missing from " ++ toString (temp.count none) ++ "/"
            ++ toString temp.length ++ " items"]
     else [])
    ++ (if tags.length > 1 then ["multiple values"] else [])
  (code, multiple, msgs)

def Track.check_all_same (t : Track) (tagName : String) : Missing × Bool × List String :=
  check_all_same_of (t.tag_entries tagName)

def Disc.check_all_same (d : Disc) (tagName : String) : Missing × Bool × List String :=
  check_all_same_of (d.tag_entries tagName)

def Album.check_all_same (a : Album) (tagName : String) : Missing × Bool × List String :=
  check_all_same_of (a.tag_entries tagName)

/-- The problem reports printed by the validator, as structured values. -/
inductive Finding
  | totalNonNumeric (totalTag : String)
  | totalMismatch (totalTag : String) (found : Nat) (total : Int)
  | sortSkip (kind : String)
  | sortOrder (kind : String)
  | cannotValidate (tagName : String)
  | nameMismatch (tagName : String) (nameVal : String) (tagVal : String)
  | invalidChars (name : String)
deriving DecidableEq, Repr

def Finding.isTotalNonNumeric : Finding → Bool
  | .totalNonNumeric _ => true
  | _ => false

def Finding.isTotalMismatch : Finding → Bool
  | .totalMismatch _ _ _ => true
  | _ => false

def Finding.isSortSkip : Finding → Bool
  | .sortSkip _ => true
  | _ => false

def Finding.isSortOrder : Finding → Bool
  | .sortOrder _ => true
  | _ => false

def Finding.isNameMismatch : Finding → Bool
  | .nameMismatch _ _ _ => true
  | _ => false

/-- Core of `validate_number_metadata` (checkflac.py lines 367-390), shared by
the album (`DISC`) and disc (`TRACK`) instantiations: the `<kind>TOTAL` check
against the child count, then the `<kind>NUMBER` sort-order check.  Python
`sorted` is modeled by insertion sort; on the linear order of `Int` every
correct sort returns the same list. -/
def number_metadata_checks (kind : String) (totalVal : Option String)
    (numbers : List String) (childCount : Nat) : List Finding :=
  (match totalVal with
   | none => []
   | some temp =>
     match pyInt temp with
     | none => [Finding.totalNonNumeric (kind ++ "TOTAL")]
     | some total =>
       if total ≠ (childCount : Int) then
         [Finding.totalMismatch (kind ++ "TOTAL") childCount total]
       else [])
  ++
  (if numbers.isEmpty then []
   else
     match numbers.mapM pyInt with
     | none => [Finding.sortSkip kind]
     | some ns =>
       if List.insertionSort (· ≤ ·) ns ≠ ns then [Finding.sortOrder kind] else [])

/-- `validate_number_metadata` at the disc level (lines 353-365 pick
`tag = "TRACK"` and `self.children = self.tracks`). -/
def Disc.validate_number_metadata (d : Disc) : List Finding :=
  number_metadata_checks "TRACK" (d.get_valid_tag "TRACKTOTAL")
    (d.tag_values "TRACKNUMBER") d.tracks.length

/-- `validate_number_metadata` at the album level (`tag = "DISC"`,
`self.children = self.discs`). -/
def Album.validate_number_metadata (a : Album) : List Finding :=
  number_metadata_checks "DISC" (a.get_valid_tag "DISCTOTAL")
    (a.tag_values "DISCNUMBER") a.discs.length

/-- `DATE_TAGS` (line 65). -/
def DATE_TAGS : List String := ["DATE", "ORIGDATE"]

/-- `TAG_TRANSLATION` (line 73): `str.maketrans('<>:\/|"', "[]----'", "?*")`.
The Python literal `'<>:\/|"'` contains a literal backslash (unknown escape),
so the seven mapped characters are `< > : \ / | "` and `? *` are deleted. -/
def tag_translation (c : Char) : Option Char :=
  if c = '<' then some '['
  else if c = '>' then some ']'
  else if c = ':' then some '-'
  else if c = '\\' then some '-'
  else if c = '/' then some '-'
  else if c = '|' then some '-'
  else if c = '"' then some '\x27'
  else if c = '?' then none
  else if c = '*' then none
  else some c

/-- `str.translate(TAG_TRANSLATION)`. -/
def translateChars (cs : List Char) : List Char := cs.filterMap tag_translation

/-- `tag.replace(":", " :")`. -/
def replaceColon (cs : List Char) : List Char :=
  cs.flatMap (fun c => if c = ':' then [' ', ':'] else [c])

/-- Python chained comparison `Date.parse(tag) == Date.parse(name) is not None`
(line 105): `None == None` is `True`; a single `None` against a `Date`
compares unequal. -/
def pyOptDateEq : Option Date → Option Date → Bool
  | none, none => true
  | some a, some b => Date.eq a b
  | _, _ => false

/-- `tagname in DATE_TAGS` where `tagname` may be `None`. -/
def isDateTagname : Option String → Bool
  | some tn => DATE_TAGS.contains tn
  | none => false

/-- `compare_names` (checkflac.py lines 97-114).  `tagname` is the optional
third parameter (default `None` at the call sites that omit it). -/
def compare_names (tag name : String) (tagname : Option String) : Bool :=
  if isDateTagname tagname then
    pyOptDateEq (Date.parse tag) (Date.parse name) && (Date.parse name).isSome
  else if translateChars tag.data = name.data then true
  else if translateChars (replaceColon tag.data) = name.data then true
  else false

/-- The nine characters substituted or deleted by `TAG_TRANSLATION`. -/
def isBadChar (c : Char) : Bool :=
  c = '<' || c = '>' || c = ':' || c = '\\' || c = '/' || c = '|' || c = '"'
    || c = '?' || c = '*'

/-- The invalid-character check of `validate_name` (lines 405-406):
`if not compare_names(self.name, self.name): print("Invalid characters ...")`. -/
def invalid_chars_check (name : String) : List Finding :=
  if compare_names name name none then [] else [Finding.invalidChars name]

/-- `Album.REQUIRED_TAGS` (line 555), as a list (Python uses a set). -/
def albumRequiredTags : List String :=
  ["ALBUM", "DATE", "ORIGDATE", "ALBUMARTIST", "DISCTOTAL", "MEDIA"]

/-- Lookup in the matched-name map `metadata` (a regex `groupdict` with
`None` entries removed). -/
def lookupField (metadata : List (String × String)) (k : String) : Option String :=
  (metadata.find? (fun p => p.1 == k)).map (fun p => p.2)

/-- Body of the reconciliation loop of `validate_name` (lines 414-429) for a
single field: fetch the level-consistent tag, fall back from `ORIGDATE` to
`DATE`, skip with a message when still unavailable, otherwise compare. -/
def reconcileField (a : Album) (tagName0 : String) (nameVal : String) : List Finding :=
  let tag0 := a.get_valid_tag tagName0
  let tagName := if tag0 = none ∧ tagName0 = "ORIGDATE" then "DATE" else tagName0
  let tag := if tag0 = none ∧ tagName0 = "ORIGDATE" then a.get_valid_tag "DATE" else tag0
  match tag with
  | none => [Finding.cannotValidate tagName]
  | some t =>
    if compare_names t nameVal (some tagName) then []
    else [Finding.nameMismatch tagName nameVal t]

/-- The loop `for tagname in self.REQUIRED_TAGS & metadata.keys()` of
`validate_name`: only fields both required and present in the matched-name
map are processed (set-iteration order is rendered as the required list
order; the claims are order-insensitive). -/
def validate_name_fields (a : Album) (required : List String)
    (metadata : List (String × String)) : List Finding :=
  required.flatMap (fun tn =>
    match lookupField metadata tn with
    | none => []
    | some v => reconcileField a tn v)

/-- The tag value that the loop body ends up comparing against: the direct
level-consistent value, with the `ORIGDATE -> DATE` fallback. -/
def resolvedTag (a : Album) (tagName : String) : Option String :=
  match a.get_valid_tag tagName with
  | some t => some t
  | none => if tagName = "ORIGDATE" then a.get_valid_tag "DATE" else none

/-- The recursion-stop level option (enum `Level`, lines 224-234). -/
inductive Level
  | album
  | disc
  | track
deriving DecidableEq, Repr

/-- The parsed command-line configuration (the `argparse.Namespace` fields
after `main` massages it, lines 722-736). -/
structure Config where
  checklevel : Level
  no_replaygain : Bool
  no_flactest : Bool
  no_albumartist : Bool
  no_trackartist : Bool
  no_cue_log : Bool
deriving DecidableEq, Repr

/-- The per-album configuration namespace built by `Album.__init__`
(line 561): a copy of the parsed configuration plus a fresh
`checked_tags` set. -/
structure AlbumConfig where
  base : Config
  checked_tags : List String
deriving DecidableEq, Repr

/-- `argparse.Namespace(**vars(config), checked_tags=set())`: the copy taken
at album construction. -/
def album_config_init (parsed : Config) : AlbumConfig :=
  { base := parsed, checked_tags := [] }

/-- The heap of configuration objects alive during a run: the shared parsed
namespace and one per-album copy, in construction order.  Python attribute
assignment on one namespace is modeled as updating that entry only. -/
structure RunState where
  parsed : Config
  albums : List AlbumConfig
deriving DecidableEq, Repr

/-- Constructing an album appends a fresh copy of the parsed configuration
(`Album.__init__`, lines 558-561). -/
def construct_album (st : RunState) : RunState :=
  { st with albums := st.albums ++ [album_config_init st.parsed] }

def modifyAt : List AlbumConfig → Nat → (AlbumConfig → AlbumConfig) → List AlbumConfig
  | [], _, _ => []
  | c :: rest, 0, f => f c :: rest
  | c :: rest, i + 1, f => c :: modifyAt rest i f

/-- `self.config.no_cue_log = True`: attribute assignment on album `i`'s own
namespace. -/
def set_no_cue_log (c : AlbumConfig) : AlbumConfig :=
  { c with base := { c.base with no_cue_log := true } }

/-- The media check of `validate_name` (lines 437-439):
`if metadata.get("MEDIA", "CD") != "CD": self.config.no_cue_log = True`,
executed while validating album `i`. -/
def validate_media (st : RunState) (i : Nat) (media : Option String) : RunState :=
  if media.getD "CD" ≠ "CD" then
    { st with albums := modifyAt st.albums i set_no_cue_log }
  else st

/-- The root loop of `main` (lines 738-741): construct and validate each
album in turn.  A missing root directory raises `FileNotFoundError`
(lines 564-565) which nothing catches, so the interpreter aborts the whole
run with a non-zero status.  `ex` abstracts `os.path.isdir`; `findings`
abstracts a whole album validation (its result never feeds back into
control flow). -/
def pyMainLoop (ex : String → Bool) (findings : String → List Finding) :
    List String → Except String (List (String × List Finding))
  | [] => Except.ok []
  | r :: rs =>
    if ex r then
      match pyMainLoop ex findings rs with
      | Except.ok out => Except.ok ((r, findings r) :: out)
      | Except.error e => Except.error e
    else Except.error r

/-- Process exit status: `main` returns `0` on success; an uncaught
exception makes the interpreter exit non-zero. -/
def pyExitCode (ex : String → Bool) (findings : String → List Finding)
    (roots : List String) : Nat :=
  match pyMainLoop ex findings roots with
  | Except.ok _ => 0
  | Except.error _ => 1

/-- Concrete disc used as counterexample input for the classification claim:
two tracks that both carry an ARTIST tag but with different values. -/
def cexDisc : Disc :=
  ⟨none, [⟨"t1", [⟨"ARTIST", "a", []⟩]⟩, ⟨"t2", [⟨"ARTIST", "b", []⟩]⟩]⟩

/-- Concrete album used for witnesses: one disc, one track carrying a DATE
tag but no ORIGDATE tag. -/
def wAlbum : Album :=
  ⟨"w", [⟨none, [⟨"01 - t.flac", [⟨"DATE", "1999", []⟩, ⟨"ALBUM", "X", []⟩]⟩]⟩]⟩

/-- Concrete disc used for witnesses of the number checks: two tracks with
TRACKTOTAL "2" and in-order TRACKNUMBER values. -/
def wDisc : Disc :=
  ⟨some "CD1",
   [⟨"01 - a.flac", [⟨"TRACKTOTAL", "2", []⟩, ⟨"TRACKNUMBER", "1", []⟩]⟩,
    ⟨"02 - b.flac", [⟨"TRACKTOTAL", "2", []⟩, ⟨"TRACKNUMBER", "2", []⟩]⟩]⟩

/-- Concrete parsed configuration for the configuration-scoping witness. -/
def wConfig : Config := ⟨Level.track, false, false, false, false, false⟩

/-- Two albums constructed from the same parsed configuration. -/
def wRun : RunState := construct_album (construct_album ⟨wConfig, []⟩)

/-- Filesystem stub for the main-loop claim: only the root "good" exists. -/
def wExists : String → Bool := fun s => s == "good"

/-- Findings stub for the main-loop claim. -/
def wFindings : String → List Finding := fun _ => []

/-- C2: Date equality is reflexive and symmetric; for all Dates `a`, `b` it
holds exactly when the years agree and, unless a month is unset on either
side, the months agree and, unless a day is unset on either side, the days
agree.  Precision propagates from the less precise operand, so
`Date(2000) == Date(2000, 2, 20)`, and equality is not transitive across
differing precision. -/
theorem date_eq_claim :
    (∀ a : Date, Date.eq a a = true) ∧
    (∀ a b : Date, Date.eq a b = Date.eq b a) ∧
    (∀ a b : Date, Date.eq a b = true ↔
      (a.year = b.year ∧ (a.month = none ∨ b.month = none ∨
        (a.month = b.month ∧ (a.day = none ∨ b.day = none ∨ a.day = b.day))))) ∧
    Date.eq ⟨2000, none, none⟩ ⟨2000, some 2, some 20⟩ = true ∧
    (Date.eq ⟨2000, some 2, some 20⟩ ⟨2000, none, none⟩ = true ∧
     Date.eq ⟨2000, none, none⟩ ⟨2000, some 3, some 5⟩ = true ∧
     Date.eq ⟨2000, some 2, some 20⟩ ⟨2000, some 3, some 5⟩ = false) := by
  have char : ∀ a b : Date, Date.eq a b = true ↔
      (a.year = b.year ∧ (a.month = none ∨ b.month = none ∨
        (a.month = b.month ∧ (a.day = none ∨ b.day = none ∨ a.day = b.day)))) := by
    intro a b
    simp only [Date.eq]
    split_ifs <;> simp_all <;> tauto
  refine ⟨?_, ?_, char, by decide, by decide, by decide, by decide⟩
  · intro a
    exact (char a a).mpr ⟨rfl, Or.inr (Or.inr ⟨rfl, Or.inr (Or.inr rfl)⟩)⟩
  · intro a b
    rw [Bool.eq_iff_iff, char a b, char b a]
    constructor <;> rintro ⟨h1, h2⟩ <;> refine ⟨h1.symm, ?_⟩ <;>
      rcases h2 with h | h | ⟨hm, hd⟩ <;>
        first
          | exact Or.inr (Or.inl h)
          | exact Or.inl h
          | (rcases hd with h | h | h
             · exact Or.inr (Or.inr ⟨hm.symm, Or.inr (Or.inl h)⟩)
             · exact Or.inr (Or.inr ⟨hm.symm, Or.inl h⟩)
             · exact Or.inr (Or.inr ⟨hm.symm, Or.inr (Or.inr h.symm)⟩))

/-- C7: for a date-bearing tag name, `compare_names` returns true exactly when
both the tag value and the extracted name value parse to Dates that are equal
under Date equality; a failed parse on either side (including both) is a
non-match. -/
theorem compare_names_date_claim (tag name tn : String) (h : tn ∈ DATE_TAGS) :
    compare_names tag name (some tn) = true ↔
      ∃ da db, Date.parse tag = some da ∧ Date.parse name = some db ∧
        Date.eq da db = true := by
  have hdt : isDateTagname (some tn) = true := by
    simp only [isDateTagname, List.contains]
    exact List.elem_eq_true_of_mem h
  simp only [compare_names, hdt, if_true]
  cases hp : Date.parse tag <;> cases hq : Date.parse name <;>
    simp [pyOptDateEq]

/-- Witness for C7 at concrete inputs: `"DATE"` is a date tag and the year
`1999` matches the more precise `1999-07-23`. -/
theorem compare_names_date_claim_w :
    compare_names "1999" "1999-07-23" (some "DATE") = true ↔
      ∃ da db, Date.parse "1999" = some da ∧ Date.parse "1999-07-23" = some db ∧
        Date.eq da db = true :=
  compare_names_date_claim "1999" "1999-07-23" "DATE" (by decide)

/-- Every character produced by the translation table is outside the nine
substituted/deleted characters. -/
theorem tag_translation_output_good (c c2 : Char) (h : tag_translation c = some c2) :
    isBadChar c2 = false := by
  simp only [tag_translation] at h
  split_ifs at h with h1 h2 h3 h4 h5 h6 h7 h8 h9 <;>
    first
      | exact Option.noConfusion h
      | (injection h with h; subst h; decide)
      | (injection h with h; subst h;
         simp [isBadChar, h1, h2, h3, h4, h5, h6, h7, h8, h9])

theorem translateChars_output_good (cs : List Char) (c : Char)
    (h : c ∈ translateChars cs) : isBadChar c = false := by
  simp only [translateChars, List.mem_filterMap] at h
  obtain ⟨c0, _, h0⟩ := h
  exact tag_translation_output_good c0 c h0

/-- On strings without any of the nine characters the translation table is
the identity. -/
theorem translateChars_id (cs : List Char) (h : ∀ c ∈ cs, isBadChar c = false) :
    translateChars cs = cs := by
  induction cs with
  | nil => rfl
  | cons c rest ih =>
    have hc := h c (List.mem_cons_self c rest)
    have hid : tag_translation c = some c := by
      simp only [isBadChar, Bool.or_eq_false_iff, decide_eq_false_iff_not] at hc
      simp only [tag_translation]
      split_ifs <;> tauto
    simp only [translateChars, List.filterMap_cons, hid]
    exact congrArg (c :: ·) (ih (fun x hx => h x (List.mem_cons_of_mem c hx)))

/-- C10: the invalid-character finding of `validate_name` is emitted iff the
display name contains at least one of the nine characters substituted or
deleted by `TAG_TRANSLATION` (`< > : \ / | " ? *`). -/
theorem invalid_chars_claim (name : String) :
    invalid_chars_check name ≠ [] ↔ ∃ c ∈ name.data, isBadChar c = true := by
  constructor
  · intro hne
    by_contra hno
    push_neg at hno
    have hgood : ∀ c ∈ name.data, isBadChar c = false := by
      intro c hc
      cases hb : isBadChar c
      · rfl
      · exact absurd hb (hno c hc)
    have : compare_names name name none = true := by
      simp [compare_names, isDateTagname, translateChars_id name.data hgood]
    simp [invalid_chars_check, this] at hne
  · rintro ⟨c, hc, hbad⟩
    have hcmp : compare_names name name none = false := by
      simp only [compare_names, isDateTagname, Bool.false_eq_true, if_false]
      have h1 : translateChars name.data ≠ name.data := by
        intro he
        have hmem : c ∈ translateChars name.data := by rw [he]; exact hc
        have := translateChars_output_good name.data c hmem
        simp [this] at hbad
      have h2 : translateChars (replaceColon name.data) ≠ name.data := by
        intro he
        have hmem : c ∈ translateChars (replaceColon name.data) := by
          rw [he]; exact hc
        have := translateChars_output_good (replaceColon name.data) c hmem
        simp [this] at hbad
      simp [h1, h2]
    simp [invalid_chars_check, hcmp]

/-- A duplicate-free list has length above one iff it has two different
members. -/
theorem nodup_one_lt_length {α : Type} (L : List α) (h : L.Nodup) :
    1 < L.length ↔ ∃ x ∈ L, ∃ y ∈ L, x ≠ y := by
  match L with
  | [] => simp
  | [a] => simp
  | a :: b :: t =>
    simp only [List.length_cons]
    rw [List.nodup_cons] at h
    constructor
    · intro _
      exact ⟨a, by simp, b, by simp, fun he => h.1 (he ▸ List.mem_cons_self b t)⟩
    · intro _
      omega

/-- Members of the value set used by `_check_all_same` after the placeholder
is removed: exactly the distinct non-placeholder entries. -/
theorem distinct_values_iff (temp M : List (Option String)) (hnd : M.Nodup)
    (hmem : ∀ x, x ∈ M ↔ x ≠ none ∧ x ∈ temp) :
    (1 < M.length ↔ ∃ v w : String, v ≠ w ∧ some v ∈ temp ∧ some w ∈ temp) := by
  rw [nodup_one_lt_length M hnd]
  constructor
  · rintro ⟨x, hx, y, hy, hxy⟩
    obtain ⟨hxn, hxt⟩ := (hmem x).mp hx
    obtain ⟨hyn, hyt⟩ := (hmem y).mp hy
    obtain ⟨v, rfl⟩ := Option.ne_none_iff_exists'.mp hxn
    obtain ⟨w, rfl⟩ := Option.ne_none_iff_exists'.mp hyn
    exact ⟨v, w, fun he => hxy (he ▸ rfl), hxt, hyt⟩
  · rintro ⟨v, w, hvw, hv, hw⟩
    refine ⟨some v, (hmem _).mpr ⟨by simp, hv⟩, some w, (hmem _).mpr ⟨by simp, hw⟩, ?_⟩
    simp [hvw]

/-- Characterization of `check_all_same_of` on a non-empty entry list. -/
theorem check_all_same_spec (temp : List (Option String)) (hne : temp ≠ []) :
    ((check_all_same_of temp).1 = Missing.ALL ↔ ∀ x ∈ temp, x = none) ∧
    ((check_all_same_of temp).1 = Missing.SOME ↔
       none ∈ temp ∧ ∃ x ∈ temp, x ≠ none) ∧
    ((check_all_same_of temp).1 = Missing.NONE ↔ none ∉ temp) ∧
    ((check_all_same_of temp).2.1 = true ↔
       ∃ v w : String, v ≠ w ∧ some v ∈ temp ∧ some w ∈ temp) := by
  by_cases hN : (none : Option String) ∈ temp.dedup
  · have hNt : (none : Option String) ∈ temp := List.mem_dedup.mp hN
    have hmemE : ∀ x, x ∈ temp.dedup.erase none ↔ x ≠ none ∧ x ∈ temp := by
      intro x
      rw [List.Nodup.mem_erase_iff (temp.nodup_dedup), List.mem_dedup]
    have hall : (temp.dedup.erase none).isEmpty = true ↔ ∀ x ∈ temp, x = none := by
      rw [List.isEmpty_iff, List.eq_nil_iff_forall_not_mem]
      constructor
      · intro h x hx
        by_contra hxe
        exact h x ((hmemE x).mpr ⟨hxe, hx⟩)
      · intro h x hx
        obtain ⟨hxn, hxt⟩ := (hmemE x).mp hx
        exact hxn (h x hxt)
    have hmul := distinct_values_iff temp (temp.dedup.erase none)
      ((temp.nodup_dedup).erase none) hmemE
    simp only [check_all_same_of, if_pos hN]
    by_cases hE : (temp.dedup.erase none).isEmpty
    · have hallv := hall.mp hE
      simp only [if_pos hE]
      refine ⟨iff_of_true (by trivial) hallv, ?_, ?_, ?_⟩
      · simp only [show Missing.ALL ≠ Missing.SOME from by decide, false_iff]
        rintro ⟨-, x, hx, hxn⟩
        exact hxn (hallv x hx)
      · simp only [show Missing.ALL ≠ Missing.NONE from by decide, false_iff]
        simp [hNt]
      · rw [decide_eq_true_iff]
        exact hmul
    · have hnall : ¬ ∀ x ∈ temp, x = none := fun hc => hE (hall.mpr hc)
      simp only [if_neg hE]
      refine ⟨?_, ?_, ?_, ?_⟩
      · simp only [show Missing.SOME ≠ Missing.ALL from by decide, false_iff]
        exact hnall
      · simp only [true_iff]
        refine ⟨hNt, ?_⟩
        push_neg at hnall
        exact hnall
      · simp only [show Missing.SOME ≠ Missing.NONE from by decide, false_iff]
        simp [hNt]
      · rw [decide_eq_true_iff]
        exact hmul
  · have hNt : (none : Option String) ∉ temp := fun hc => hN (List.mem_dedup.mpr hc)
    obtain ⟨x0, hx0⟩ : ∃ x, x ∈ temp := by
      cases temp with
      | nil => exact absurd rfl hne
      | cons a t => exact ⟨a, by simp⟩
    have hmemD : ∀ x, x ∈ temp.dedup ↔ x ≠ none ∧ x ∈ temp := by
      intro x
      constructor
      · intro hx
        exact ⟨fun he => hN (he ▸ hx), List.mem_dedup.mp hx⟩
      · intro hx
        exact List.mem_dedup.mpr hx.2
    have hmul := distinct_values_iff temp temp.dedup temp.nodup_dedup hmemD
    simp only [check_all_same_of, if_neg hN]
    refine ⟨?_, ?_, ?_, ?_⟩
    · simp only [show Missing.NONE ≠ Missing.ALL from by decide, false_iff]
      intro hc
      exact hNt (hc x0 hx0 ▸ hx0)
    · simp only [show Missing.NONE ≠ Missing.SOME from by decide, false_iff]
      rintro ⟨hc, -⟩
      exact hNt hc
    · simp only [true_iff]
      exact hNt
    · rw [decide_eq_true_iff]
      exact hmul

/-- C1 (amended): for every subtree node with at least one item entry, the
classification is ALL iff every placeholder-included entry is the
placeholder; NONE iff no entry is the placeholder (regardless of whether the
values agree — disagreement is carried by the separate flag); SOME otherwise
(placeholder present alongside a real value); and the multiple-distinct-values
flag is true iff at least two distinct non-placeholder values occur. -/
theorem check_all_same_claim :
    (∀ (a : Album) (tag : String), a.tag_entries tag ≠ [] →
      (((a.check_all_same tag).1 = Missing.ALL ↔ ∀ x ∈ a.tag_entries tag, x = none) ∧
       ((a.check_all_same tag).1 = Missing.SOME ↔
          none ∈ a.tag_entries tag ∧ ∃ x ∈ a.tag_entries tag, x ≠ none) ∧
       ((a.check_all_same tag).1 = Missing.NONE ↔ none ∉ a.tag_entries tag) ∧
       ((a.check_all_same tag).2.1 = true ↔
          ∃ v w : String, v ≠ w ∧ some v ∈ a.tag_entries tag ∧
            some w ∈ a.tag_entries tag))) ∧
    (∀ (d : Disc) (tag : String), d.tag_entries tag ≠ [] →
      (((d.check_all_same tag).1 = Missing.ALL ↔ ∀ x ∈ d.tag_entries tag, x = none) ∧
       ((d.check_all_same tag).1 = Missing.SOME ↔
          none ∈ d.tag_entries tag ∧ ∃ x ∈ d.tag_entries tag, x ≠ none) ∧
       ((d.check_all_same tag).1 = Missing.NONE ↔ none ∉ d.tag_entries tag) ∧
       ((d.check_all_same tag).2.1 = true ↔
          ∃ v w : String, v ≠ w ∧ some v ∈ d.tag_entries tag ∧
            some w ∈ d.tag_entries tag))) ∧
    (∀ (t : Track) (tag : String), t.tag_entries tag ≠ [] →
      (((t.check_all_same tag).1 = Missing.ALL ↔ ∀ x ∈ t.tag_entries tag, x = none) ∧
       ((t.check_all_same tag).1 = Missing.SOME ↔
          none ∈ t.tag_entries tag ∧ ∃ x ∈ t.tag_entries tag, x ≠ none) ∧
       ((t.check_all_same tag).1 = Missing.NONE ↔ none ∉ t.tag_entries tag) ∧
       ((t.check_all_same tag).2.1 = true ↔
          ∃ v w : String, v ≠ w ∧ some v ∈ t.tag_entries tag ∧
            some w ∈ t.tag_entries tag))) :=
  ⟨fun _ _ h => check_all_same_spec _ h,
   fun _ _ h => check_all_same_spec _ h,
   fun _ _ h => check_all_same_spec _ h⟩

/-- Witness for C1 at a concrete disc with a consistent TRACKTOTAL tag. -/
theorem check_all_same_claim_w :
    ((wDisc.check_all_same "TRACKTOTAL").1 = Missing.ALL ↔
       ∀ x ∈ wDisc.tag_entries "TRACKTOTAL", x = none) ∧
    ((wDisc.check_all_same "TRACKTOTAL").1 = Missing.SOME ↔
       none ∈ wDisc.tag_entries "TRACKTOTAL" ∧
         ∃ x ∈ wDisc.tag_entries "TRACKTOTAL", x ≠ none) ∧
    ((wDisc.check_all_same "TRACKTOTAL").1 = Missing.NONE ↔
       none ∉ wDisc.tag_entries "TRACKTOTAL") ∧
    ((wDisc.check_all_same "TRACKTOTAL").2.1 = true ↔
       ∃ v w : String, v ≠ w ∧ some v ∈ wDisc.tag_entries "TRACKTOTAL" ∧
         some w ∈ wDisc.tag_entries "TRACKTOTAL") :=
  check_all_same_claim.2.1 wDisc "TRACKTOTAL" (by decide)

/-- Counterexample to C1 as stated: on a disc whose two tracks carry ARTIST
values "a" and "b", no entry is the placeholder but the items do not agree on
one value, yet the classification is NONE (the claim predicts SOME because of
its "all items agree on one value" conjunct in the NONE case). -/
theorem check_all_same_cex :
    (cexDisc.check_all_same "ARTIST").1 = Missing.NONE ∧
    cexDisc.tag_entries "ARTIST" = [some "a", some "b"] ∧
    (some "a" : Option String) ≠ some "b" := by
  refine ⟨?_, by decide, by decide⟩
  decide

/-- The sort-order half of `validate_number_metadata` never produces
total-check findings. -/
theorem sort_half_no_total (kind : String) (numbers : List String) (p : Finding → Bool)
    (h1 : ∀ k, p (Finding.sortSkip k) = false) (h2 : ∀ k, p (Finding.sortOrder k) = false) :
    ((if numbers.isEmpty then ([] : List Finding)
      else match numbers.mapM pyInt with
        | none => [Finding.sortSkip kind]
        | some ns =>
          if List.insertionSort (· ≤ ·) ns ≠ ns then [Finding.sortOrder kind]
          else []).filter p) = [] := by
  split
  · rfl
  · split
    · simp [List.filter, h1]
    · split
      · simp [List.filter, h2]
      · rfl

/-- The total half of `validate_number_metadata` never produces sort-order
findings. -/
theorem total_half_no_sort (kind : String) (totalVal : Option String) (childCount : Nat)
    (p : Finding → Bool)
    (h1 : ∀ k, p (Finding.totalNonNumeric k) = false)
    (h2 : ∀ k c t, p (Finding.totalMismatch k c t) = false) :
    ((match totalVal with
      | none => ([] : List Finding)
      | some temp =>
        match pyInt temp with
        | none => [Finding.totalNonNumeric (kind ++ "TOTAL")]
        | some total =>
          if total ≠ (childCount : Int) then
            [Finding.totalMismatch (kind ++ "TOTAL") childCount total]
          else []).filter p) = [] := by
  rcases totalVal with _ | v
  · rfl
  · cases hp : pyInt v
    · simp [hp, List.filter, h1]
    · simp only [hp]
      split
      · simp [List.filter, h2]
      · rfl

/-- Count of total-mismatch findings produced by the number checks. -/
theorem nmc_mismatch_count (kind : String) (totalVal : Option String)
    (numbers : List String) (childCount : Nat) :
    ((number_metadata_checks kind totalVal numbers childCount).filter
        Finding.isTotalMismatch).length
      = (match totalVal with
         | none => 0
         | some v =>
           match pyInt v with
           | none => 0
           | some k => if k = (childCount : Int) then 0 else 1) := by
  simp only [number_metadata_checks, List.filter_append,
    sort_half_no_total kind numbers Finding.isTotalMismatch
      (fun _ => rfl) (fun _ => rfl), List.append_nil]
  rcases totalVal with _ | v
  · rfl
  · cases hp : pyInt v
    · simp only [hp]
      rfl
    · rename_i k
      simp only [hp]
      by_cases hk : k = (childCount : Int)
      · simp [hk]
      · simp only [ne_eq, hk, not_false_eq_true, if_true, if_neg hk]
        rfl

/-- Count of non-numeric-total findings produced by the number checks. -/
theorem nmc_nonnumeric_count (kind : String) (totalVal : Option String)
    (numbers : List String) (childCount : Nat) :
    ((number_metadata_checks kind totalVal numbers childCount).filter
        Finding.isTotalNonNumeric).length
      = (match totalVal with
         | none => 0
         | some v => match pyInt v with | none => 1 | some _ => 0) := by
  simp only [number_metadata_checks, List.filter_append,
    sort_half_no_total kind numbers Finding.isTotalNonNumeric
      (fun _ => rfl) (fun _ => rfl), List.append_nil]
  rcases totalVal with _ | v
  · rfl
  · cases hp : pyInt v
    · simp only [hp]
      rfl
    · rename_i k
      simp only [hp]
      by_cases hk : k = (childCount : Int)
      · simp [hk]
      · simp only [ne_eq, hk, not_false_eq_true, if_true, if_neg hk]
        rfl

/-- Count of hard sort-order findings produced by the number checks. -/
theorem nmc_sortorder_count (kind : String) (totalVal : Option String)
    (numbers : List String) (childCount : Nat) :
    ((number_metadata_checks kind totalVal numbers childCount).filter
        Finding.isSortOrder).length
      = (match numbers.mapM pyInt with
         | none => 0
         | some ns => if List.insertionSort (· ≤ ·) ns = ns then 0 else 1) := by
  simp only [number_metadata_checks, List.filter_append,
    total_half_no_sort kind totalVal childCount Finding.isSortOrder
      (fun _ => rfl) (fun _ _ _ => rfl), List.nil_append]
  by_cases hE : numbers.isEmpty
  · have : numbers = [] := List.isEmpty_iff.mp hE
    subst this
    rfl
  · simp only [if_neg hE]
    cases hm : numbers.mapM pyInt
    · simp only [hm]
      rfl
    · rename_i ns
      simp only [hm]
      by_cases hs : List.insertionSort (· ≤ ·) ns = ns
      · simp [hs]
      · simp only [ne_eq, hs, not_false_eq_true, if_true, if_neg hs]
        rfl

/-- Count of skipped-sort warnings produced by the number checks. -/
theorem nmc_sortskip_count (kind : String) (totalVal : Option String)
    (numbers : List String) (childCount : Nat) :
    ((number_metadata_checks kind totalVal numbers childCount).filter
        Finding.isSortSkip).length
      = (match numbers.mapM pyInt with
         | none => 1
         | some _ => 0) := by
  simp only [number_metadata_checks, List.filter_append,
    total_half_no_sort kind totalVal childCount Finding.isSortSkip
      (fun _ => rfl) (fun _ _ _ => rfl), List.nil_append]
  by_cases hE : numbers.isEmpty
  · have : numbers = [] := List.isEmpty_iff.mp hE
    subst this
    rfl
  · simp only [if_neg hE]
    cases hm : numbers.mapM pyInt
    · simp only [hm]
      rfl
    · rename_i ns
      simp only [hm]
      by_cases hs : List.insertionSort (· ≤ ·) ns = ns
      · simp [hs]
      · simp only [ne_eq, hs, not_false_eq_true, if_true, if_neg hs]
        rfl

/-- A sorted copy equals the original list exactly on non-decreasing lists. -/
theorem insertionSort_eq_self_iff (ns : List Int) :
    List.insertionSort (· ≤ ·) ns = ns ↔ ns.Sorted (· ≤ ·) :=
  ⟨fun h => h ▸ List.sorted_insertionSort (· ≤ ·) ns,
   fun h => h.insertionSort_eq⟩

/-- C5: for an album or disc with a level-consistent `<kind>TOTAL` value, an
integer value equal to the child count produces no total-mismatch finding and
any other integer value (in particular the count changed by one, or the tag
changed by one) produces exactly one; a non-integer value produces exactly
one non-numeric finding and no mismatch finding. -/
theorem total_check_claim :
    (∀ (d : Disc) (v : String), d.get_valid_tag "TRACKTOTAL" = some v →
      (∀ k : Int, pyInt v = some k →
        ((d.validate_number_metadata.filter Finding.isTotalMismatch).length
           = if k = (d.tracks.length : Int) then 0 else 1) ∧
        (d.validate_number_metadata.filter Finding.isTotalNonNumeric).length = 0) ∧
      (pyInt v = none →
        (d.validate_number_metadata.filter Finding.isTotalNonNumeric).length = 1 ∧
        (d.validate_number_metadata.filter Finding.isTotalMismatch).length = 0)) ∧
    (∀ (a : Album) (v : String), a.get_valid_tag "DISCTOTAL" = some v →
      (∀ k : Int, pyInt v = some k →
        ((a.validate_number_metadata.filter Finding.isTotalMismatch).length
           = if k = (a.discs.length : Int) then 0 else 1) ∧
        (a.validate_number_metadata.filter Finding.isTotalNonNumeric).length = 0) ∧
      (pyInt v = none →
        (a.validate_number_metadata.filter Finding.isTotalNonNumeric).length = 1 ∧
        (a.validate_number_metadata.filter Finding.isTotalMismatch).length = 0)) := by
  constructor
  · intro d v hv
    constructor
    · intro k hk
      constructor
      · rw [Disc.validate_number_metadata, nmc_mismatch_count, hv]
        simp [hk]
      · rw [Disc.validate_number_metadata, nmc_nonnumeric_count, hv]
        simp [hk]
    · intro hk
      constructor
      · rw [Disc.validate_number_metadata, nmc_nonnumeric_count, hv]
        simp [hk]
      · rw [Disc.validate_number_metadata, nmc_mismatch_count, hv]
        simp [hk]
  · intro a v hv
    constructor
    · intro k hk
      constructor
      · rw [Album.validate_number_metadata, nmc_mismatch_count, hv]
        simp [hk]
      · rw [Album.validate_number_metadata, nmc_nonnumeric_count, hv]
        simp [hk]
    · intro hk
      constructor
      · rw [Album.validate_number_metadata, nmc_nonnumeric_count, hv]
        simp [hk]
      · rw [Album.validate_number_metadata, nmc_mismatch_count, hv]
        simp [hk]

/-- Witness for C5: a disc with TRACKTOTAL "2" and two tracks yields no
total-mismatch and no non-numeric finding. -/
theorem total_check_claim_w :
    ((wDisc.validate_number_metadata.filter Finding.isTotalMismatch).length
       = if (2 : Int) = (wDisc.tracks.length : Int) then 0 else 1) ∧
    (wDisc.validate_number_metadata.filter Finding.isTotalNonNumeric).length = 0 :=
  ((total_check_claim.1 wDisc "2" (by decide)).1 2 (by decide))

/-- C6: the sort-order check over the children's `<kind>NUMBER` values
produces no finding when the integer-interpreted sequence is non-decreasing,
exactly one finding when it is out of order, and when any value is
non-numeric it produces exactly one skip-warning and never a hard sort-order
finding. -/
theorem sort_check_claim :
    (∀ d : Disc,
      (∀ ns : List Int, (d.tag_values "TRACKNUMBER").mapM pyInt = some ns →
        (d.validate_number_metadata.filter Finding.isSortSkip).length = 0 ∧
        (ns.Sorted (· ≤ ·) →
          (d.validate_number_metadata.filter Finding.isSortOrder).length = 0) ∧
        (¬ ns.Sorted (· ≤ ·) →
          (d.validate_number_metadata.filter Finding.isSortOrder).length = 1)) ∧
      ((d.tag_values "TRACKNUMBER").mapM pyInt = none →
        (d.validate_number_metadata.filter Finding.isSortSkip).length = 1 ∧
        (d.validate_number_metadata.filter Finding.isSortOrder).length = 0)) ∧
    (∀ a : Album,
      (∀ ns : List Int, (a.tag_values "DISCNUMBER").mapM pyInt = some ns →
        (a.validate_number_metadata.filter Finding.isSortSkip).length = 0 ∧
        (ns.Sorted (· ≤ ·) →
          (a.validate_number_metadata.filter Finding.isSortOrder).length = 0) ∧
        (¬ ns.Sorted (· ≤ ·) →
          (a.validate_number_metadata.filter Finding.isSortOrder).length = 1)) ∧
      ((a.tag_values "DISCNUMBER").mapM pyInt = none →
        (a.validate_number_metadata.filter Finding.isSortSkip).length = 1 ∧
        (a.validate_number_metadata.filter Finding.isSortOrder).length = 0)) := by
  constructor
  · intro d
    constructor
    · intro ns hm
      refine ⟨?_, ?_, ?_⟩
      · rw [Disc.validate_number_metadata, nmc_sortskip_count, hm]
      · intro hs
        rw [Disc.validate_number_metadata, nmc_sortorder_count, hm]
        simp [(insertionSort_eq_self_iff ns).mpr hs]
      · intro hs
        rw [Disc.validate_number_metadata, nmc_sortorder_count, hm]
        have : ¬ List.insertionSort (· ≤ ·) ns = ns :=
          fun hc => hs ((insertionSort_eq_self_iff ns).mp hc)
        simp [this]
    · intro hm
      constructor
      · rw [Disc.validate_number_metadata, nmc_sortskip_count, hm]
      · rw [Disc.validate_number_metadata, nmc_sortorder_count, hm]
  · intro a
    constructor
    · intro ns hm
      refine ⟨?_, ?_, ?_⟩
      · rw [Album.validate_number_metadata, nmc_sortskip_count, hm]
      · intro hs
        rw [Album.validate_number_metadata, nmc_sortorder_count, hm]
        simp [(insertionSort_eq_self_iff ns).mpr hs]
      · intro hs
        rw [Album.validate_number_metadata, nmc_sortorder_count, hm]
        have : ¬ List.insertionSort (· ≤ ·) ns = ns :=
          fun hc => hs ((insertionSort_eq_self_iff ns).mp hc)
        simp [this]
    · intro hm
      constructor
      · rw [Album.validate_number_metadata, nmc_sortskip_count, hm]
      · rw [Album.validate_number_metadata, nmc_sortorder_count, hm]

/-- Witness for C6: in-order track numbers "1", "2" produce no sort-order
finding and no skip-warning. -/
theorem sort_check_claim_w :
    (wDisc.validate_number_metadata.filter Finding.isSortSkip).length = 0 ∧
    (wDisc.validate_number_metadata.filter Finding.isSortOrder).length = 0 := by
  have h := (sort_check_claim.1 wDisc).1 [1, 2] (by decide)
  exact ⟨h.1, h.2.1 (by decide)⟩

/-- Filtering the matched-name map by a predicate that keeps every pair with
key `t` does not change the lookup of `t`. -/
theorem lookupField_filter (metadata : List (String × String))
    (q : String × String → Bool) (t : String)
    (hq : ∀ p : String × String, p.1 = t → q p = true) :
    lookupField (metadata.filter q) t = lookupField metadata t := by
  induction metadata with
  | nil => rfl
  | cons p rest ih =>
    by_cases hpt : (p.1 == t) = true
    · have hq2 : q p = true := hq p (by simpa using hpt)
      simp [lookupField, List.filter_cons, hq2, List.find?_cons, hpt]
    · by_cases hqp : q p = true
      · simpa [lookupField, List.filter_cons, hqp, List.find?_cons, hpt] using ih
      · simpa [lookupField, List.filter_cons, hqp, List.find?_cons, hpt] using ih

/-- Restricting the matched-name map to required keys leaves the
reconciliation loop unchanged. -/
theorem vnf_filter_metadata (a : Album) (iter req : List String)
    (metadata : List (String × String))
    (hsub : ∀ t ∈ iter, req.contains t = true) :
    validate_name_fields a iter (metadata.filter (fun p => req.contains p.1))
      = validate_name_fields a iter metadata := by
  induction iter with
  | nil => rfl
  | cons t rest ih =>
    have hl := lookupField_filter metadata (fun p => req.contains p.1) t
      (fun p hp => by simpa [hp] using hsub t (List.mem_cons_self t rest))
    have ih2 := ih (fun x hx => hsub x (List.mem_cons_of_mem t hx))
    simp only [validate_name_fields, List.flatMap_cons] at ih2 ⊢
    rw [hl, ih2]

/-- C8: during name reconciliation, a missing level-consistent ORIGDATE tag
makes the comparison behave exactly as a DATE comparison (fallback); a field
whose (possibly fallen-back) tag value is unavailable is skipped with a
cannot-validate message and never reported as a mismatch; and only fields in
both the required-tag set and the matched-name map are ever compared. -/
theorem validate_name_claim :
    (∀ (a : Album) (v : String), a.get_valid_tag "ORIGDATE" = none →
      reconcileField a "ORIGDATE" v = reconcileField a "DATE" v) ∧
    (∀ (a : Album) (tn v : String),
      ((∃ t, reconcileField a tn v = [Finding.cannotValidate t]) ↔
        resolvedTag a tn = none)) ∧
    (∀ (a : Album) (required : List String) (metadata : List (String × String)),
      validate_name_fields a required metadata
        = validate_name_fields a
            (required.filter (fun t => (lookupField metadata t).isSome)) metadata) ∧
    (∀ (a : Album) (metadata : List (String × String)),
      validate_name_fields a albumRequiredTags metadata
        = validate_name_fields a albumRequiredTags
            (metadata.filter (fun p => albumRequiredTags.contains p.1))) := by
  refine ⟨?_, ?_, ?_, ?_⟩
  · intro a v h
    simp [reconcileField, h]
  · intro a tn v
    cases hx : a.get_valid_tag tn with
    | none =>
      by_cases htn : tn = "ORIGDATE"
      · subst htn
        cases hd : a.get_valid_tag "DATE" with
        | none =>
          have hrec : reconcileField a "ORIGDATE" v
              = [Finding.cannotValidate "DATE"] := by
            simp [reconcileField, hx, hd]
          have hres : resolvedTag a "ORIGDATE" = none := by
            simp [resolvedTag, hx, hd]
          rw [hrec, hres]
          exact iff_of_true ⟨"DATE", rfl⟩ rfl
        | some w =>
          have hrec : reconcileField a "ORIGDATE" v
              = (if compare_names w v (some "DATE") = true then []
                 else [Finding.nameMismatch "DATE" v w]) := by
            simp [reconcileField, hx, hd]
          have hres : resolvedTag a "ORIGDATE" = some w := by
            simp [resolvedTag, hx, hd]
          rw [hrec, hres]
          by_cases hc : compare_names w v (some "DATE") = true <;> simp [hc]
      · simp [reconcileField, resolvedTag, hx, htn]
    | some w =>
      have hrec : reconcileField a tn v
          = (if compare_names w v (some tn) = true then []
             else [Finding.nameMismatch tn v w]) := by
        simp [reconcileField, hx]
      have hres : resolvedTag a tn = some w := by
        simp [resolvedTag, hx]
      rw [hrec, hres]
      by_cases hc : compare_names w v (some tn) = true <;> simp [hc]
  · intro a required metadata
    induction required with
    | nil => rfl
    | cons t rest ih =>
      simp only [validate_name_fields, List.flatMap_cons, List.filter_cons] at ih ⊢
      cases hl : lookupField metadata t
      · simpa [hl] using ih
      · simpa [hl] using ih
  · intro a metadata
    exact (vnf_filter_metadata a albumRequiredTags albumRequiredTags metadata
      (fun t ht => List.elem_eq_true_of_mem ht)).symm

/-- Witness for C8 at a concrete album carrying DATE but no ORIGDATE. -/
theorem validate_name_claim_w :
    reconcileField wAlbum "ORIGDATE" "1999" = reconcileField wAlbum "DATE" "1999" ∧
    ((∃ t, reconcileField wAlbum "MEDIA" "CD" = [Finding.cannotValidate t]) ↔
      resolvedTag wAlbum "MEDIA" = none) ∧
    validate_name_fields wAlbum albumRequiredTags [("ALBUM", "X")]
      = validate_name_fields wAlbum
          (albumRequiredTags.filter
            (fun t => (lookupField [("ALBUM", "X")] t).isSome))
          [("ALBUM", "X")] :=
  ⟨validate_name_claim.1 wAlbum "1999" (by decide),
   validate_name_claim.2.1 wAlbum "MEDIA" "CD",
   validate_name_claim.2.2.1 wAlbum albumRequiredTags [("ALBUM", "X")]⟩

/-- Updating one album configuration leaves every other position unchanged. -/
theorem modifyAt_ne (l : List AlbumConfig) (i : Nat) (f : AlbumConfig → AlbumConfig)
    (j : Nat) (hj : j ≠ i) : (modifyAt l i f)[j]? = l[j]? := by
  induction l generalizing i j with
  | nil => rfl
  | cons c rest ih =>
    cases i with
    | zero =>
      cases j with
      | zero => exact absurd rfl hj
      | succ j2 => simp [modifyAt]
    | succ i2 =>
      cases j with
      | zero => simp [modifyAt]
      | succ j2 =>
        simp only [modifyAt, List.getElem?_cons_succ]
        exact ih i2 j2 (fun he => hj (by rw [he]))

/-- C9: the per-album configuration is a copy taken at construction; the
no-cue/log mutation performed while validating one album touches only that
album's copy, leaving the shared parsed configuration and every sibling
album's copy unchanged. -/
theorem config_scope_claim :
    (∀ st : RunState, (construct_album st).parsed = st.parsed ∧
       (construct_album st).albums = st.albums ++ [album_config_init st.parsed]) ∧
    (∀ (st : RunState) (i : Nat) (media : Option String),
       (validate_media st i media).parsed = st.parsed) ∧
    (∀ (st : RunState) (i : Nat) (media : Option String) (j : Nat), j ≠ i →
       (validate_media st i media).albums[j]? = st.albums[j]?) := by
  refine ⟨fun st => ⟨rfl, rfl⟩, ?_, ?_⟩
  · intro st i media
    unfold validate_media
    split <;> rfl
  · intro st i media j hj
    unfold validate_media
    split
    · exact modifyAt_ne st.albums i set_no_cue_log j hj
    · rfl

/-- Witness for C9: in a run with two albums built from the same parsed
configuration, flagging non-CD media on album 0 leaves album 1's copy and
the parsed configuration untouched. -/
theorem config_scope_claim_w :
    (validate_media wRun 0 (some "WEB")).parsed = wRun.parsed ∧
    (validate_media wRun 0 (some "WEB")).albums[1]? = wRun.albums[1]? :=
  ⟨config_scope_claim.2.1 wRun 0 (some "WEB"),
   config_scope_claim.2.2 wRun 0 (some "WEB") 1 (by decide)⟩

/-- Counterexample to C4 as stated: with roots ["missing", "good"] where only
"good" exists, the run aborts at "missing" and the sibling root "good" is
never validated, although it validates fine on its own. -/
theorem main_loop_cex :
    pyMainLoop wExists wFindings ["missing", "good"] = Except.error "missing" ∧
    pyMainLoop wExists wFindings ["good"] = Except.ok [("good", [])] :=
  ⟨rfl, rfl⟩

/-- C4 (amended): the exit status is zero iff every given root exists — in
particular it never depends on the validation findings — and a missing root
aborts the whole run at that root, so the remaining sibling roots are not
validated. -/
theorem main_loop_claim :
    (∀ (ex : String → Bool) (f : String → List Finding) (roots : List String),
      pyExitCode ex f roots = if roots.all ex then 0 else 1) ∧
    (∀ (ex : String → Bool) (f g : String → List Finding) (roots : List String),
      pyExitCode ex f roots = pyExitCode ex g roots) ∧
    (∀ (ex : String → Bool) (f : String → List Finding) (pre : List String)
       (bad : String) (post : List String),
      (∀ r ∈ pre, ex r = true) → ex bad = false →
      pyMainLoop ex f (pre ++ bad :: post) = Except.error bad) := by
  have h1 : ∀ (ex : String → Bool) (f : String → List Finding) (roots : List String),
      pyExitCode ex f roots = if roots.all ex then 0 else 1 := by
    intro ex f roots
    induction roots with
    | nil => rfl
    | cons r rs ih =>
      simp only [pyExitCode] at ih
      cases hr : ex r
      · simp [pyExitCode, pyMainLoop, hr, List.all_cons]
      · cases hm : pyMainLoop ex f rs
        · simp only [hm] at ih
          cases hall : rs.all ex
          · simp [pyExitCode, pyMainLoop, hr, hm, List.all_cons, hall]
          · simp [hall] at ih
        · simp only [hm] at ih
          cases hall : rs.all ex
          · simp [hall] at ih
          · simp [pyExitCode, pyMainLoop, hr, hm, List.all_cons, hall]
  refine ⟨h1, fun ex f g roots => by rw [h1, h1], ?_⟩
  intro ex f pre bad post hpre hbad
  induction pre with
  | nil => simp [pyMainLoop, hbad]
  | cons p ps ih =>
    have hp : ex p = true := hpre p (List.mem_cons_self p ps)
    have ih2 := ih (fun r hr => hpre r (List.mem_cons_of_mem p hr))
    simp [pyMainLoop, hp, ih2]

/-- Witness for C4 at concrete inputs: an existing root followed by a missing
one aborts with the missing root's error. -/
theorem main_loop_claim_w :
    pyMainLoop wExists wFindings (["good"] ++ "bad2" :: []) = Except.error "bad2" :=
  main_loop_claim.2.2 wExists wFindings ["good"] "bad2" []
    (by intro r hr; simp at hr; rw [hr]; rfl) (by decide)

theorem digitsValAux_nil (acc : Nat) : digitsValAux acc [] = acc := rfl

theorem digitsValAux_cons (acc : Nat) (c : Char) (rest : List Char) :
    digitsValAux acc (c :: rest) = digitsValAux (10 * acc + digitVal c) rest := rfl

theorem natDigitsAux_succ (fuel n : Nat) :
    natDigitsAux (fuel + 1) n =
      if n < 10 then [Nat.digitChar n]
      else natDigitsAux fuel (n / 10) ++ [Nat.digitChar (n % 10)] := rfl

theorem digitsValAux_append (xs ys : List Char) (acc : Nat) :
    digitsValAux acc (xs ++ ys) = digitsValAux (digitsValAux acc xs) ys := by
  induction xs generalizing acc with
  | nil => rfl
  | cons c rest ih =>
    show digitsValAux (10 * acc + digitVal c) (rest ++ ys)
        = digitsValAux (digitsValAux (10 * acc + digitVal c) rest) ys
    exact ih (10 * acc + digitVal c)

theorem digitsValAux_acc (xs : List Char) (acc : Nat) :
    digitsValAux acc xs = acc * 10 ^ xs.length + digitsValAux 0 xs := by
  induction xs generalizing acc with
  | nil => simp [digitsValAux_nil]
  | cons c rest ih =>
    simp only [digitsValAux_cons, List.length_cons]
    rw [ih (10 * acc + digitVal c), ih (10 * 0 + digitVal c)]
    ring

theorem digitChar_isDigit (k : Nat) (h : k < 10) : (Nat.digitChar k).isDigit = true := by
  revert h
  revert k
  decide

theorem digitChar_val (k : Nat) (h : k < 10) : digitVal (Nat.digitChar k) = k := by
  revert h
  revert k
  decide

/-- `natDigitsAux` produces a non-empty digit string whose value is `n`. -/
theorem natDigitsAux_spec (fuel : Nat) : ∀ n, n < fuel →
    (∀ c ∈ natDigitsAux fuel n, c.isDigit = true) ∧
    digitsValAux 0 (natDigitsAux fuel n) = n ∧ natDigitsAux fuel n ≠ [] := by
  induction fuel with
  | zero => omega
  | succ fuel ih =>
    intro n hn
    by_cases h10 : n < 10
    · refine ⟨?_, ?_, by simp [natDigitsAux_succ, h10]⟩
      · intro c hc
        simp only [natDigitsAux_succ, if_pos h10, List.mem_singleton] at hc
        subst hc
        exact digitChar_isDigit n h10
      · simp only [natDigitsAux_succ, if_pos h10, digitsValAux_cons, digitsValAux_nil]
        rw [Nat.mul_zero, Nat.zero_add, digitChar_val n h10]
    · have hdiv : n / 10 < fuel := by
        have h2 : n / 10 < n := Nat.div_lt_self (by omega) (by omega)
        omega
      obtain ⟨ihd, ihv, ihne⟩ := ih (n / 10) hdiv
      refine ⟨?_, ?_, ?_⟩
      · intro c hc
        simp only [natDigitsAux_succ, if_neg h10, List.mem_append,
          List.mem_singleton] at hc
        rcases hc with hc | hc
        · exact ihd c hc
        · subst hc
          exact digitChar_isDigit (n % 10) (Nat.mod_lt n (by omega))
      · simp only [natDigitsAux_succ, if_neg h10]
        rw [digitsValAux_append, ihv]
        simp only [digitsValAux_cons, digitsValAux_nil]
        rw [digitChar_val (n % 10) (Nat.mod_lt n (by omega))]
        omega
      · simp [natDigitsAux_succ, if_neg h10]

theorem natDigits_spec (n : Nat) :
    (∀ c ∈ natDigits n, c.isDigit = true) ∧
    digitsValAux 0 (natDigits n) = n ∧ natDigits n ≠ [] :=
  natDigitsAux_spec (n + 1) n (by omega)

/-- A number below `10 ^ k` prints in at most `k` digits. -/
theorem natDigitsAux_len (fuel : Nat) : ∀ n k, n < fuel → 1 ≤ k → n < 10 ^ k →
    (natDigitsAux fuel n).length ≤ k := by
  induction fuel with
  | zero => omega
  | succ fuel ih =>
    intro n k hn hk hnk
    by_cases h10 : n < 10
    · simp only [natDigitsAux_succ, if_pos h10, List.length_singleton]
      omega
    · have hdiv : n / 10 < fuel := by
        have h2 : n / 10 < n := Nat.div_lt_self (by omega) (by omega)
        omega
      have hk2 : 2 ≤ k := by
        by_contra hc
        have hk1 : k = 1 := by omega
        subst hk1
        simp [pow_one] at hnk
        omega
      have hpow : 10 ^ (k - 1) * 10 = 10 ^ k := by
        conv_rhs => rw [show k = (k - 1) + 1 by omega]
        rw [pow_succ]
      have hquot : n / 10 < 10 ^ (k - 1) :=
        Nat.div_lt_of_lt_mul (by rw [Nat.mul_comm 10 (10 ^ (k - 1)), hpow]; exact hnk)
      have := ih (n / 10) (k - 1) hdiv (by omega) hquot
      simp only [natDigitsAux_succ, if_neg h10, List.length_append,
        List.length_singleton]
      omega

theorem digitsValAux_zeros (j : Nat) :
    digitsValAux 0 (List.replicate j '0') = 0 := by
  induction j with
  | zero => rfl
  | succ j ih =>
    simpa [List.replicate_succ, digitsValAux_cons, digitVal] using ih

/-- Zero-padding does not change the numeric value. -/
theorem digitsVal_zfill (w : Nat) (ds : List Char) :
    digitsValAux 0 (zfill w ds) = digitsValAux 0 ds := by
  unfold zfill
  rw [digitsValAux_append, digitsValAux_zeros]

/-- The zero-padded digit string of `n < 10^w`: exact width, all digits,
value `n`. -/
theorem zfill_digits_spec (w n : Nat) (hw : 1 ≤ w) (hn : n < 10 ^ w) :
    (zfill w (natDigits n)).length = w ∧
    (∀ c ∈ zfill w (natDigits n), c.isDigit = true) ∧
    digitsValAux 0 (zfill w (natDigits n)) = n := by
  obtain ⟨hdig, hval, hne⟩ := natDigits_spec n
  have hlen : (natDigits n).length ≤ w := natDigitsAux_len (n + 1) n w (by omega) hw hn
  refine ⟨?_, ?_, ?_⟩
  · simp only [zfill, List.length_append, List.length_replicate]
    omega
  · intro c hc
    simp only [zfill, List.mem_append, List.mem_replicate] at hc
    rcases hc with ⟨-, rfl⟩ | hc
    · decide
    · exact hdig c hc
  · rw [digitsVal_zfill]
    exact hval

/-- `%Y` on a four-digit prefix consumes exactly those digits and yields
their value. -/
theorem parseY4_spec (ds rest : List Char) (hlen : ds.length = 4)
    (hdig : ∀ c ∈ ds, c.isDigit = true) :
    parseY4 (ds ++ rest) = some (digitsValAux 0 ds, rest) := by
  cases ds with
  | nil => simp at hlen
  | cons a t1 =>
  cases t1 with
  | nil => simp at hlen
  | cons b t2 =>
  cases t2 with
  | nil => simp at hlen
  | cons c t3 =>
  cases t3 with
  | nil => simp at hlen
  | cons d t4 =>
  cases t4 with
  | cons e t5 => simp at hlen
  | nil =>
    have ha := hdig a (by simp)
    have hb := hdig b (by simp)
    have hc := hdig c (by simp)
    have hd := hdig d (by simp)
    simp only [List.cons_append, List.nil_append, parseY4, ha, hb, hc, hd,
      Bool.and_self, if_true]
    simp only [digitsValAux_cons, digitsValAux_nil, Option.some.injEq,
      Prod.mk.injEq, and_true]
    ring

/-- The two-digit branch of `%m`/`%d` on a two-digit prefix whose value is in
range consumes exactly those digits. -/
theorem parseNum2_spec (hi : Nat) (ds rest : List Char) (hlen : ds.length = 2)
    (hdig : ∀ c ∈ ds, c.isDigit = true)
    (h1 : 1 ≤ digitsValAux 0 ds) (h2 : digitsValAux 0 ds ≤ hi) :
    parseNum2 hi (ds ++ rest) = some (digitsValAux 0 ds, rest) := by
  cases ds with
  | nil => simp at hlen
  | cons c1 t1 =>
  cases t1 with
  | nil => simp at hlen
  | cons c2 t2 =>
  cases t2 with
  | cons e t3 => simp at hlen
  | nil =>
    have ha := hdig c1 (by simp)
    have hb := hdig c2 (by simp)
    have hv : digitsValAux 0 [c1, c2] = 10 * digitVal c1 + digitVal c2 := by
      simp only [digitsValAux_cons, digitsValAux_nil]
      ring
    rw [hv] at h1 h2
    simp only [List.cons_append, List.nil_append, parseNum2, ha, hb, h1, h2,
      decide_eq_true_eq, Bool.and_self, Bool.and_true, Bool.true_and, if_true, hv]

theorem daysInMonth_le_31 (y m : Nat) : daysInMonth y m ≤ 31 := by
  unfold daysInMonth
  split_ifs <;> omega

theorem pow_ten_two : (10 : Nat) ^ 2 = 100 := by norm_num

theorem pow_ten_four : (10 : Nat) ^ 4 = 10000 := by norm_num

/-- Parsing the canonical year-only rendering. -/
theorem parse_y_str (n : Nat) (h1 : 1 ≤ n) (h2 : n ≤ 9999) :
    Date.parse (String.mk (zfill 4 (natDigits n)))
      = some ⟨(n : Int), none, none⟩ := by
  obtain ⟨hl, hd, hv⟩ := zfill_digits_spec 4 n (by omega)
    (by rw [pow_ten_four]; omega)
  have hY := parseY4_spec (zfill 4 (natDigits n)) [] hl hd
  rw [List.append_nil, hv] at hY
  simp [Date.parse, strpYMD, strpYM, strpY, hY, h1]

/-- Parsing the canonical year-month rendering. -/
theorem parse_ym_str (n m : Nat) (hy1 : 1 ≤ n) (hy2 : n ≤ 9999)
    (hm1 : 1 ≤ m) (hm2 : m ≤ 12) :
    Date.parse (String.mk (zfill 4 (natDigits n) ++ '-' :: zfill 2 (natDigits m)))
      = some ⟨(n : Int), some (m : Int), none⟩ := by
  obtain ⟨hlY, hdY, hvY⟩ := zfill_digits_spec 4 n (by omega)
    (by rw [pow_ten_four]; omega)
  obtain ⟨hlM, hdM, hvM⟩ := zfill_digits_spec 2 m (by omega)
    (by rw [pow_ten_two]; omega)
  have hY := parseY4_spec (zfill 4 (natDigits n)) ('-' :: zfill 2 (natDigits m)) hlY hdY
  rw [hvY] at hY
  have hM := parseNum2_spec 12 (zfill 2 (natDigits m)) [] hlM hdM
    (by rw [hvM]; omega) (by rw [hvM]; omega)
  rw [List.append_nil, hvM] at hM
  simp [Date.parse, strpYMD, strpYM, hY, hM, hy1]

/-- Parsing the canonical year-month-day rendering. -/
theorem parse_ymd_str (n m x : Nat) (hy1 : 1 ≤ n) (hy2 : n ≤ 9999)
    (hm1 : 1 ≤ m) (hm2 : m ≤ 12) (hx1 : 1 ≤ x) (hx2 : x ≤ daysInMonth n m) :
    Date.parse (String.mk (zfill 4 (natDigits n)
        ++ '-' :: (zfill 2 (natDigits m) ++ '-' :: zfill 2 (natDigits x))))
      = some ⟨(n : Int), some (m : Int), some (x : Int)⟩ := by
  obtain ⟨hlY, hdY, hvY⟩ := zfill_digits_spec 4 n (by omega)
    (by rw [pow_ten_four]; omega)
  obtain ⟨hlM, hdM, hvM⟩ := zfill_digits_spec 2 m (by omega)
    (by rw [pow_ten_two]; omega)
  have hx31 : x ≤ 31 := le_trans hx2 (daysInMonth_le_31 n m)
  obtain ⟨hlX, hdX, hvX⟩ := zfill_digits_spec 2 x (by omega)
    (by rw [pow_ten_two]; omega)
  have hY := parseY4_spec (zfill 4 (natDigits n))
    ('-' :: (zfill 2 (natDigits m) ++ '-' :: zfill 2 (natDigits x))) hlY hdY
  rw [hvY] at hY
  have hM := parseNum2_spec 12 (zfill 2 (natDigits m))
    ('-' :: zfill 2 (natDigits x)) hlM hdM
    (by rw [hvM]; omega) (by rw [hvM]; omega)
  rw [hvM] at hM
  have hX := parseNum2_spec 31 (zfill 2 (natDigits x)) [] hlX hdX
    (by rw [hvX]; omega) (by rw [hvX]; omega)
  rw [List.append_nil, hvX] at hX
  simp [Date.parse, strpYMD, hY, hM, hX, hy1, hx2]

theorem date_eq_self (d : Date) : Date.eq d d = true := by
  simp only [Date.eq]
  split_ifs <;> simp_all

/-- C3 (amended): `Date.parse(str(d)) == d` holds for every constructible
Date whose year lies in 1..9999 and whose month, when set, lies in 1..12 with
any set day between 1 and the length of that month in that year (together
with the day-implies-month invariant); outside these ranges the rendered
string does not re-parse and the comparison is False. -/
theorem date_roundtrip_claim (dt : Date)
    (hy1 : 1 ≤ dt.year) (hy2 : dt.year ≤ 9999)
    (hm12 : ∀ m, dt.month = some m → 1 ≤ m ∧ m ≤ 12)
    (hday : ∀ x, dt.day = some x → ∃ m, dt.month = some m ∧ 1 ≤ x ∧
        x ≤ (daysInMonth dt.year.natAbs m.natAbs : Int)) :
    dateRoundtrip dt = true := by
  obtain ⟨y, mo, da⟩ := dt
  simp only at hy1 hy2 hm12 hday
  have hyn : ((y.natAbs : Int)) = y := Int.natAbs_of_nonneg (by omega)
  have hY4 : pyFmt0 4 y = zfill 4 (natDigits y.natAbs) := by
    simp [pyFmt0, show ¬(y < 0) by omega]
  cases mo with
  | none =>
    cases da with
    | some x =>
      obtain ⟨m, hm', -⟩ := hday x rfl
      exact absurd hm' (by simp)
    | none =>
      have hstr : Date.toStr ⟨y, none, none⟩
          = String.mk (zfill 4 (natDigits y.natAbs)) := by
        simp [Date.toStr, hY4]
      have hp := parse_y_str y.natAbs (by omega) (by omega)
      rw [hyn] at hp
      simp [dateRoundtrip, hstr, hp, date_eq_self]
  | some m =>
    obtain ⟨hm1, hm2⟩ := hm12 m rfl
    have hmn : ((m.natAbs : Int)) = m := Int.natAbs_of_nonneg (by omega)
    have hM2 : pyFmt0 2 m = zfill 2 (natDigits m.natAbs) := by
      simp [pyFmt0, show ¬(m < 0) by omega]
    cases da with
    | none =>
      have hstr : Date.toStr ⟨y, some m, none⟩
          = String.mk (zfill 4 (natDigits y.natAbs)
              ++ '-' :: zfill 2 (natDigits m.natAbs)) := by
        simp [Date.toStr, hY4, hM2]
      have hp := parse_ym_str y.natAbs m.natAbs (by omega) (by omega)
        (by omega) (by omega)
      rw [hyn, hmn] at hp
      simp [dateRoundtrip, hstr, hp, date_eq_self]
    | some x =>
      obtain ⟨m2, hm2eq, hx1, hx2⟩ := hday x rfl
      have hm2m : m2 = m := by
        injection hm2eq with h
        exact h.symm
      rw [hm2m] at hx2
      have hxn : ((x.natAbs : Int)) = x := Int.natAbs_of_nonneg (by omega)
      have hX2 : pyFmt0 2 x = zfill 2 (natDigits x.natAbs) := by
        simp [pyFmt0, show ¬(x < 0) by omega]
      have hxd : x.natAbs ≤ daysInMonth y.natAbs m.natAbs := by omega
      have hstr : Date.toStr ⟨y, some m, some x⟩
          = String.mk (zfill 4 (natDigits y.natAbs)
              ++ '-' :: (zfill 2 (natDigits m.natAbs)
                ++ '-' :: zfill 2 (natDigits x.natAbs))) := by
        simp [Date.toStr, hY4, hM2, hX2]
      have hp := parse_ymd_str y.natAbs m.natAbs x.natAbs (by omega) (by omega)
        (by omega) (by omega) (by omega) hxd
      rw [hyn, hmn, hxn] at hp
      simp [dateRoundtrip, hstr, hp, date_eq_self]

/-- Counterexample to C3 as stated: the constructible `Date(2000, 13)`
renders as "2000-13", which no strptime format accepts, so
`Date.parse(str(d)) == d` is False. -/
theorem date_roundtrip_cex : dateRoundtrip ⟨2000, some 13, none⟩ = false := by
  decide

/-- Witness for C3 at a concrete in-range date (a leap-day). -/
theorem date_roundtrip_claim_w : dateRoundtrip ⟨2024, some 2, some 29⟩ = true :=
  date_roundtrip_claim ⟨2024, some 2, some 29⟩ (by decide) (by decide)
    (by intro m hm; injection hm with h; omega)
    (by
      intro x hx
      injection hx with h
      refine ⟨2, rfl, by omega, ?_⟩
      subst h
      decide)
